import Mathlib

/-!
# Verification of the ingestion normalizer in `docs/generate_site.py`

This file gives a shallow embedding of the `scan_directory` normalizer of
`docs/generate_site.py` (the CAES chatbot documentation-site generator) and
proves / refutes the specification claims about it.

Modelling conventions:
* Python values loaded from JSON are modelled by the inductive `Json`;
  `Json.null` stands for Python `None` (both a JSON `null` and an absent
  optional value, exactly as `dict.get` conflates them).
* Python dictionaries are association lists `List (String × Json)` in
  insertion order; `dict.get`, `in` and item assignment are `dget`,
  `Json.hasKey` and `Json.setKey` below.
* Reading a file that exists either yields its parsed content or a parse
  error; `Option (Except Unit α)` is "file absent / file present but
  malformed / file present and parsed".  A markdown file's raw text read
  is `Except Unit String` (read errors are possible per file).
* CSV parsing itself is done by Python's `csv.DictReader`; the embedding
  takes its output (a list of row dictionaries) as the parsed content.
-/

set_option autoImplicit false

namespace GenerateSite

/-- A JSON / Python value as produced by `json.load`.  `null` stands for
Python `None`. -/
inductive Json where
  | null : Json
  | bool : Bool → Json
  | num : Int → Json
  | str : String → Json
  | arr : List Json → Json
  | obj : List (String × Json) → Json
deriving Repr

/-- Python dictionary: association list in insertion order. -/
abbrev Dict := List (String × Json)

/-- First binding of key `k`, if any. -/
def dfind (d : Dict) (k : String) : Option Json :=
  (d.find? (fun p => p.1 == k)).map (fun p => p.2)

/-- Python `d.get(k)`: `None` (here `Json.null`) when the key is absent. -/
def dget (d : Dict) (k : String) : Json :=
  (dfind d k).getD .null

/-- Python `d.get(k, default)`. -/
def dgetD (d : Dict) (k : String) (default : Json) : Json :=
  (dfind d k).getD default

/-- The fields of a JSON object (empty for non-objects). -/
def Json.objFields : Json → List (String × Json)
  | .obj fs => fs
  | _ => []

/-- The elements of a JSON array (empty for non-arrays). -/
def Json.asArr : Json → List Json
  | .arr xs => xs
  | _ => []

/-- Python `k in d` on a dictionary: key present (even with a `null` value). -/
def Json.hasKey (j : Json) (k : String) : Bool :=
  (dfind j.objFields k).isSome

/-- Python `d.get(k)` on a JSON object. -/
def Json.getKey (j : Json) (k : String) : Json :=
  dget j.objFields k

/-- Python `d.get(k, default)` on a JSON object. -/
def Json.getD (j : Json) (k : String) (default : Json) : Json :=
  dgetD j.objFields k default

/-- Python dictionary item assignment `d[k] = v`: replace the binding in
place if the key exists, otherwise append it. -/
def setField (fs : List (String × Json)) (k : String) (v : Json) :
    List (String × Json) :=
  match fs with
  | [] => [(k, v)]
  | (k', v') :: rest =>
    if k' == k then (k', v) :: rest else (k', v') :: setField rest k v

/-- Assignment `j[k] = v` on a JSON object (the generator only assigns into
dicts). -/
def Json.setKey (j : Json) (k : String) (v : Json) : Json :=
  .obj (setField j.objFields k v)

/-- Python truthiness of a loaded JSON value: `None`, `False`, `0`, `""`,
`[]` and `{}` are falsy. -/
def Json.truthy : Json → Bool
  | .null => false
  | .bool b => b
  | .num n => n != 0
  | .str s => s ≠ ""
  | .arr xs => !xs.isEmpty
  | .obj fs => !fs.isEmpty

/-- Python `str()` of a loaded JSON value, for f-string interpolation.  The
generator only interpolates scalars; container reprs are abbreviated. -/
def Json.pystr : Json → String
  | .null => "None"
  | .bool b => if b then "True" else "False"
  | .num n => toString n
  | .str s => s
  | .arr _ => "[...]"
  | .obj _ => "\x7b...\x7d"

/-! ## String helpers mirroring Python's `str` methods -/

/-- Python's `\s` character class (ASCII part). -/
def pySpace (c : Char) : Bool :=
  c == ' ' || c == '\t' || c == '\n' || c == '\r' || c == '\x0b' || c == '\x0c'

/-- Core of Python `str.title()` for ASCII text: uppercase a letter that
follows a non-letter, lowercase a letter that follows a letter. -/
def pyTitleAux : Bool → List Char → List Char
  | _, [] => []
  | prevAlpha, c :: cs =>
    if c.isAlpha then
      (if prevAlpha then c.toLower else c.toUpper) :: pyTitleAux true cs
    else
      c :: pyTitleAux false cs

/-- Python `str.title()` (ASCII model). -/
def pyTitle (s : String) : String :=
  ⟨pyTitleAux false s.data⟩

/-- Python `str.strip()`: drop leading and trailing whitespace. -/
def pyStrip (s : String) : String :=
  ⟨((s.data.dropWhile pySpace).reverse.dropWhile pySpace).reverse⟩

/-- Python `str.replace(old, new)` on character lists: scan left to right,
replacing non-overlapping occurrences.  The fuel argument (instantiated
with the list length) only makes the recursion structural. -/
def pyReplaceAux (pattern repl : List Char) : Nat → List Char → List Char
  | _, [] => []
  | 0, cs => cs
  | fuel + 1, c :: cs =>
    if pattern ≠ [] && pattern.isPrefixOf (c :: cs) then
      repl ++ pyReplaceAux pattern repl fuel ((c :: cs).drop pattern.length)
    else
      c :: pyReplaceAux pattern repl fuel cs

/-- Python `s.replace(pattern, repl)` (the generator only uses non-empty
patterns). -/
def pyReplace (s pattern repl : String) : String :=
  ⟨pyReplaceAux pattern.data repl.data s.data.length s.data⟩

/-- Accumulator for the final path component: reset at each `/`. -/
def pathNameAux : List Char → List Char → List Char
  | acc, [] => acc
  | acc, c :: cs => if c = '/' then pathNameAux [] cs else pathNameAux (acc ++ [c]) cs

/-- Python `pathlib.Path(p).name`: final `/`-separated component (inputs in the
repository use forward slashes and no trailing separator). -/
def pathName (p : String) : String :=
  ⟨pathNameAux [] p.data⟩

/-- Split at the first occurrence of `sep`, if any. -/
def splitOnce (sep : List Char) : List Char → Option (List Char × List Char)
  | [] => none
  | c :: cs =>
    if sep.isPrefixOf (c :: cs) then some ([], (c :: cs).drop sep.length)
    else
      match splitOnce sep cs with
      | some (pre, post) => some (c :: pre, post)
      | none => none

/-- Python `f"{urlparse(u).scheme}://{urlparse(u).netloc}"` for URLs of the common
`scheme://host/path` shape (the only shape the crawl data contains). -/
def schemeNetloc (url : String) : String :=
  match splitOnce "://".data url.data with
  | none => "://"
  | some (scheme, rest) =>
    String.mk scheme ++ "://" ++ String.mk (rest.takeWhile (fun c => c ≠ '/'))

/-! ## Regex matchers of the markdown fallback

`scan_directory` applies three patterns to a markdown file's text:
`^url:\s+(https?://[^\s]+)` and `^title:\s+(.+)$` (both `re.MULTILINE`),
`^dropbox_url:\s+(https?://[^\s]+)` (`re.MULTILINE`), and
`\*\*Source:\*\*\s+(https?://[^\s]+)` (unanchored).  The matchers below
replay those regexes at one candidate position; `searchFromLineStarts`
and `searchAnywhere` replay `re.search`'s leftmost-match strategy. -/

/-- Try `key` followed by `\s+` followed by the capture
`(https?://[^\s]+)` at the head of `cs`.  Since `\s` and `h` are disjoint
the greedy `\s+` never backtracks.  `[^\s]+` demands at least one
non-space character after the scheme: a bare `http://` does not match. -/
def matchKeyUrl (key : List Char) (cs : List Char) : Option String :=
  if key.isPrefixOf cs then
    let rest := cs.drop key.length
    let ws := rest.takeWhile pySpace
    if ws.isEmpty then none
    else
      let rest' := rest.drop ws.length
      let scheme : List Char :=
        if "https://".data.isPrefixOf rest' then "https://".data
        else if "http://".data.isPrefixOf rest' then "http://".data
        else []
      if scheme.isEmpty then none
      else
        let tail := (rest'.drop scheme.length).takeWhile (fun c => !pySpace c)
        if tail.isEmpty then none
        else some ⟨scheme ++ tail⟩
  else none

/-- Try `title:` followed by `\s+(.+)$` at the head of `cs`, returning the
capture.  The greedy `\s+` may cross newlines; when nothing but whitespace
precedes the line end, the engine backtracks one whitespace character into
the capture (which then strips to the empty string). -/
def matchTitleField (cs : List Char) : Option String :=
  if "title:".data.isPrefixOf cs then
    let rest := cs.drop 6
    let ws := rest.takeWhile pySpace
    if ws.isEmpty then none
    else
      let rest' := rest.drop ws.length
      let t := rest'.takeWhile (fun c => c ≠ '\n')
      if !t.isEmpty then some (pyStrip ⟨t⟩)
      else if ws.length ≥ 2 && ws.getLast? ≠ some '\n' then some ""
      else none
  else none

/-- Try `\*\*Source:\*\*\s+(https?://[^\s]+)` at the head of `cs`. -/
def matchSourceMarker (cs : List Char) : Option String :=
  matchKeyUrl "**Source:**".data cs

/-- The suffixes starting right after each newline, in order. -/
def tailsAfterNewlines : List Char → List (List Char)
  | [] => []
  | c :: cs => if c = '\n' then cs :: tailsAfterNewlines cs else tailsAfterNewlines cs

/-- Python `re.search` with a `^`-anchored pattern under `re.MULTILINE`: try the
matcher at the start of the string and after every newline, leftmost
first. -/
def searchFromLineStarts (f : List Char → Option String) (cs : List Char) :
    Option String :=
  (cs :: tailsAfterNewlines cs).findSome? f

/-- `re.search` with an unanchored pattern: try the matcher at every
position, leftmost first. -/
def searchAnywhere (f : List Char → Option String) : List Char → Option String
  | [] => f []
  | c :: cs =>
    match f (c :: cs) with
    | some r => some r
    | none => searchAnywhere f cs

/-! ## The filesystem and record model -/

/-- A markdown file found by `item.glob("*.md")`: its stem (file name
without the final extension), its full path as a string, and the result of
`md_file.read_text(...)` (a read error is possible per file). -/
structure MdFile where
  stem : String
  path : String
  content : Except Unit String
deriving Repr

/-- A directory under the content root.  Each optional input file is
either absent (`none`), present but malformed (`some (.error ())`) or
present with parsed content.  `crawl_inventory.csv` content is the row
list produced by `csv.DictReader`. -/
inductive Dir where
  | mk :
    (name : String) →
    (csvInv : Option (Except Unit (List Dict))) →
    (metadataJson : Option (Except Unit Json)) →
    (crawlSummary : Option (Except Unit Json)) →
    (apiSummary : Option (Except Unit Json)) →
    (mdFiles : List MdFile) →
    (subdirs : List Dir) →
    Dir

def Dir.name : Dir → String
  | .mk n _ _ _ _ _ _ => n

def Dir.csvInv : Dir → Option (Except Unit (List Dict))
  | .mk _ c _ _ _ _ _ => c

def Dir.metadataJson : Dir → Option (Except Unit Json)
  | .mk _ _ m _ _ _ _ => m

def Dir.crawlSummary : Dir → Option (Except Unit Json)
  | .mk _ _ _ s _ _ _ => s

def Dir.apiSummary : Dir → Option (Except Unit Json)
  | .mk _ _ _ _ a _ _ => a

def Dir.mdFiles : Dir → List MdFile
  | .mk _ _ _ _ _ m _ => m

def Dir.subdirs : Dir → List Dir
  | .mk _ _ _ _ _ _ s => s

/-- The `crawl_data` record built for each visited directory (a `Site`
record of the spec).  `summary` starts as the empty dict and `crawl_date`
as `None`. -/
structure Site where
  name : String
  pages : List Dict
  summary : Json
  crawl_date : Json
  is_subdirectory : Bool
deriving Repr

/-- Site name: `f"{parent_name}/{item.name}" if parent_name else item.name`. -/
def joinName (parentName itemName : String) : String :=
  if parentName = "" then itemName else parentName ++ "/" ++ itemName

/-- The initial `crawl_data` dict of `scan_directory`'s loop body. -/
def initSite (parentName itemName : String) : Site :=
  { name := joinName parentName itemName
    pages := []
    summary := .obj []
    crawl_date := .null
    is_subdirectory := parentName ≠ "" }

/-! ## The six resolution steps of `scan_directory`

Each step is the loop-body fragment of `scan_directory` operating on the
current `crawl_data` record.  Line numbers refer to
`docs/generate_site.py`. -/

/-- Lines 42-63: the `crawl_inventory.csv` step.  Every `DictReader` row is
appended to `pages` verbatim; the first row's `URL` seeds the summary's
`base_url` and its `Crawl Date` column seeds the timestamp. -/
def csvStep (s : Site) (rows : List Dict) : Site :=
  let s := { s with pages := s.pages ++ rows }
  let s :=
    match rows with
    | [] => s
    | r0 :: _ =>
      if !(s.summary.getKey "base_url").truthy then
        let first_url := dgetD r0 "URL" (.str "")
        if first_url.truthy then
          { s with summary :=
              s.summary.setKey "base_url" (.str (schemeNetloc first_url.pystr)) }
        else s
      else s
  match rows with
  | [] => s
  | r0 :: _ =>
    if !s.crawl_date.truthy then { s with crawl_date := dget r0 "Crawl Date" }
    else s

/-- Lines 72-81: the base URL stored by the `_metadata.json` step — the
declared `baseUrl`, or scheme+host of the first listed file's URL when the
declared field is falsy and the files list is truthy. -/
def metaBaseUrl (metadata : Json) : Json :=
  let base_url := metadata.getKey "baseUrl"
  if !base_url.truthy && (metadata.getKey "files").truthy then
    let first_url := ((metadata.getKey "files").asArr.headD (.obj [])).getD "url" (.str "")
    if first_url.truthy then .str (schemeNetloc first_url.pystr) else base_url
  else base_url

/-- Lines 92-101: the page synthesized for one `files` entry of
`_metadata.json`. -/
def metadataPage (siteName : String) (file_info : Json) : Dict :=
  [("URL", file_info.getD "url" (.str "")),
   ("Title", file_info.getD "title" (.str "Untitled")),
   ("Local File", .str ("docs/" ++ siteName ++ "/" ++ (file_info.getKey "filename").pystr)),
   ("Source", .str "metadata"),
   ("Depth", .str "0")]

/-- Lines 65-101: the `_metadata.json` step.  The summary's `base_url` and
the timestamp are overwritten unconditionally; pages are synthesized only
when none exist yet.  The `file_url_map` comprehension at lines 85-88
indexes `file_info["filename"]` for every entry (raising `KeyError`, which
aborts the run, when one is missing) and is otherwise dead code. -/
def metadataStep (siteName : String) (s : Site) (metadata : Json) :
    Except Unit Site :=
  if (metadata.getD "files" (.arr [])).asArr.all (fun fi => fi.hasKey "filename") then
    let s := { s with
      summary := s.summary.setKey "base_url" (metaBaseUrl metadata)
      crawl_date := metadata.getKey "crawledAt" }
    if s.pages.isEmpty then
      .ok { s with
        pages := s.pages ++ (metadata.getD "files" (.arr [])).asArr.map (metadataPage siteName) }
    else .ok s
  else .error ()

/-- Lines 114-128: the page synthesized for one `files` entry of
`crawl_summary.json`: URL inferred as `<base_url>/<file name with the
substring ".md" removed>`, title from the same string with hyphens turned
into spaces and then title-cased. -/
def summaryFilePage (summary : Json) (file_path : Json) : Dict :=
  let file_name := pathName file_path.pystr
  let url := (summary.getD "base_url" (.str "")).pystr ++ "/" ++ pyReplace file_name ".md" ""
  [("URL", .str url),
   ("Title", .str (pyTitle (pyReplace (pyReplace file_name ".md" "") "-" " "))),
   ("Local File", file_path),
   ("Source", .str "file"),
   ("Depth", .str "0")]

/-- Lines 103-128 (inner part): the `crawl_summary.json` step, reached only
when no pages exist yet.  The loaded JSON replaces the summary wholesale. -/
def summaryStep (s : Site) (summary : Json) : Site :=
  let s := { s with summary := summary, crawl_date := summary.getKey "crawl_date" }
  if s.pages.isEmpty && summary.hasKey "files" then
    { s with
      pages := s.pages ++ (summary.getD "files" (.arr [])).asArr.map (summaryFilePage summary) }
  else s

/-- Lines 150-161: the page built for one `processed_files` entry of
`api_processing_summary.json`. -/
def apiPage (file_info : Json) : Dict :=
  [("URL", file_info.getD "share_url" (.str "")),
   ("Title", file_info.getD "title" (.str "Untitled")),
   ("Local File", file_info.getD "output_path" (.str "")),
   ("Source", .str "dropbox"),
   ("Folder", file_info.getD "folder" (.str "uncategorized")),
   ("Depth", .str "0")]

/-- Python substring containment `needle in hay` for character lists. -/
def listInfix (needle : List Char) : List Char → Bool
  | [] => needle.isEmpty
  | c :: cs => needle.isPrefixOf (c :: cs) || listInfix needle cs

/-- The excluded-title marker of the API-processing step (line 148). -/
def excludedMarker : String := "Destiny One Payout"

/-- Lines 136-161: the `api_processing_summary.json` step for
`dropbox/intranet-files`.  Entries whose title contains the excluded
marker substring are skipped. -/
def apiStep (s : Site) (api : Json) : Site :=
  let s := { s with crawl_date := api.getKey "processed_at", summary := api }
  { s with
    pages := s.pages ++ (api.getD "processed_files" (.arr [])).asArr.filterMap (fun fi =>
      let title := fi.getD "title" (.str "Untitled")
      if listInfix excludedMarker.data title.pystr.data then none
      else some (apiPage fi)) }

/-- Lines 177-186: the page built for one article of the parent
`crawl_summary.json`'s category for this subdirectory. -/
def teamdynamixPage (itemName : String) (article : Json) : Dict :=
  [("URL", article.getD "url" (.str "")),
   ("Title", article.getD "title" (.str "Untitled")),
   ("Local File", .str ("docs/teamdynamix/" ++ itemName)),
   ("Source", .str "teamdynamix"),
   ("Depth", .str "0")]

/-- Lines 164-186 (inner part): the TeamDynamix step, reading the parent
directory's already-loaded `crawl_summary.json`. -/
def teamdynamixStep (itemName : String) (s : Site) (parentSummary : Json) : Site :=
  if parentSummary.hasKey "categories" &&
      (parentSummary.getKey "categories").hasKey itemName then
    let category_data := (parentSummary.getKey "categories").getKey itemName
    let s := { s with crawl_date := parentSummary.getKey "crawl_date" }
    { s with
      pages := s.pages ++ (category_data.getD "articles" (.arr [])).asArr.map
        (teamdynamixPage itemName) }
  else s

/-! ## The markdown fallback (lines 188-247) -/

/-- Default URL of a markdown page: `f"file:///{md_file}"`. -/
def mdDefaultUrl (m : MdFile) : String := "file:///" ++ m.path

/-- Default title of a markdown page:
`md_file.stem.replace("-", " ").replace("_", " ").title()`. -/
def mdDefaultTitle (m : MdFile) : String :=
  pyTitle (pyReplace (pyReplace m.stem "-" " ") "_" " ")

/-- The page dict appended for one markdown file (lines 239-247). -/
def mdPage (url title path : String) : Dict :=
  [("URL", .str url),
   ("Title", .str title),
   ("Local File", .str path),
   ("Source", .str "direct"),
   ("Depth", .str "0")]

/-- Lines 193-247: process one markdown file.  A read failure is caught and
the defaults survive; otherwise the three patterns are tried in order and
the first match wins.  Only the first two patterns can also override the
title, and only when a `title:` line is present. -/
def processMdFile (m : MdFile) : Dict :=
  match m.content with
  | .error _ => mdPage (mdDefaultUrl m) (mdDefaultTitle m) m.path
  | .ok content =>
    let cs := content.data
    match searchFromLineStarts (matchKeyUrl "url:".data) cs with
    | some u =>
      let t := (searchFromLineStarts matchTitleField cs).getD (mdDefaultTitle m)
      mdPage u t m.path
    | none =>
      match searchFromLineStarts (matchKeyUrl "dropbox_url:".data) cs with
      | some u =>
        let t := (searchFromLineStarts matchTitleField cs).getD (mdDefaultTitle m)
        mdPage u t m.path
      | none =>
        match searchAnywhere matchSourceMarker cs with
        | some u => mdPage u (mdDefaultTitle m) m.path
        | none => mdPage (mdDefaultUrl m) (mdDefaultTitle m) m.path

/-- Lines 190-247 (outer part): the markdown fallback step. -/
def markdownStep (s : Site) (mds : List MdFile) : Site :=
  if mds.isEmpty then s
  else { s with pages := s.pages ++ mds.map processMdFile }

/-! ## The per-directory resolution chain

`stageN` is the state of `crawl_data` after the first `N` sources of the
chain; `processItem` is the whole loop body of `scan_directory` for one
visited directory (minus the recursion).  A malformed file surfaces as
`.error` exactly when the code would open it. -/

/-- State after the CSV inventory step. -/
def stage1 (parentName : String) (item : Dir) : Except Unit Site :=
  let s0 := initSite parentName item.name
  match item.csvInv with
  | none => .ok s0
  | some (.error e) => .error e
  | some (.ok rows) => .ok (csvStep s0 rows)

/-- State after the `_metadata.json` step. -/
def stage2 (parentName : String) (item : Dir) : Except Unit Site := do
  let s ← stage1 parentName item
  match item.metadataJson with
  | none => .ok s
  | some (.error e) => .error e
  | some (.ok metadata) => metadataStep (joinName parentName item.name) s metadata

/-- State after the `crawl_summary.json` step (file opened only when no
pages exist yet). -/
def stage3 (parentName : String) (item : Dir) : Except Unit Site := do
  let s ← stage2 parentName item
  if s.pages.isEmpty then
    match item.crawlSummary with
    | none => .ok s
    | some (.error e) => .error e
    | some (.ok summary) => .ok (summaryStep s summary)
  else .ok s

/-- State after the `api_processing_summary.json` step (only for
`dropbox/intranet-files`, and only when no pages exist yet). -/
def stage4 (parentName : String) (item : Dir) : Except Unit Site := do
  let s ← stage3 parentName item
  if parentName == "dropbox" && item.name == "intranet-files" && s.pages.isEmpty then
    match item.apiSummary with
    | none => .ok s
    | some (.error e) => .error e
    | some (.ok api) => .ok (apiStep s api)
  else .ok s

/-- State after the TeamDynamix step (only for children of `teamdynamix`,
and only when no pages exist yet; reads the parent's `crawl_summary.json`). -/
def stage5 (parentCrawlSummary : Option (Except Unit Json)) (parentName : String)
    (item : Dir) : Except Unit Site := do
  let s ← stage4 parentName item
  if parentName == "teamdynamix" && s.pages.isEmpty then
    match parentCrawlSummary with
    | none => .ok s
    | some (.error e) => .error e
    | some (.ok psum) => .ok (teamdynamixStep item.name s psum)
  else .ok s

/-- The whole loop body for one visited directory: the five file-based
sources followed by the markdown fallback. -/
def processItem (parentCrawlSummary : Option (Except Unit Json)) (parentName : String)
    (item : Dir) : Except Unit Site := do
  let s ← stage5 parentCrawlSummary parentName item
  if s.pages.isEmpty then .ok (markdownStep s item.mdFiles) else .ok s

/-! ## The traversal (lines 26-262) -/

/-- The fixed recursion allow-list of line 254. -/
def allowList : List String := ["teamdynamix", "dropbox", "wordpress-uploads-processed"]

/-- The loop of `scan_directory` over the subdirectories of one base
directory: process each item, retain its Site record when it has pages or
a non-empty summary, and recurse when the base is the root or the item's
name is allow-listed.  The result keeps insertion order. -/
def scanItems (parentName : String) (parentCrawlSummary : Option (Except Unit Json)) :
    List Dir → Except Unit (List (String × Site))
  | [] => .ok []
  | item :: rest =>
    match processItem parentCrawlSummary parentName item with
    | .error e => .error e
    | .ok site =>
      let here := if !site.pages.isEmpty || site.summary.truthy then [(site.name, site)] else []
      let subResult :=
        if parentName == "" || allowList.contains item.name then
          scanItems (joinName parentName item.name) item.crawlSummary item.subdirs
        else .ok []
      match subResult with
      | .error e => .error e
      | .ok sub =>
        match scanItems parentName parentCrawlSummary rest with
        | .error e => .error e
        | .ok tail => .ok (here ++ sub ++ tail)
termination_by ds => sizeOf ds
decreasing_by
  all_goals simp only [List.cons.sizeOf_spec]
  all_goals have hlt : sizeOf item.subdirs < sizeOf item := by { cases item; simp [Dir.subdirs] }
  all_goals omega

/-- `read_crawl_data()`: scan the root's subdirectories with an empty
parent name. -/
def readCrawlData (root : Dir) : Except Unit (List (String × Site)) :=
  scanItems "" root.crawlSummary root.subdirs

/-! ## Concrete instances used by witnesses and counterexamples -/

/-- Concrete directory for the C1 witness: a one-row CSV inventory plus a
crawl-summary file and a markdown file that must not contribute pages. -/
def claim1row : Dict :=
  [("URL", .str "https://abo.uga.edu/p"), ("Title", .str "P")]

def claim1dir : Dir :=
  .mk "abo-site" (some (.ok [claim1row])) none
    (some (.ok (.obj [("base_url", .str "https://abo.uga.edu"),
                      ("files", .arr [.str "x.md"])])))
    none [⟨"m", "docs/abo-site/m.md", .ok ""⟩] []

/-- C4 counterexample directory: a valid CSV inventory with a header row
only (zero data rows) next to a `_metadata.json` with one file entry. -/
def claim4dir : Dir :=
  .mk "gacounts-site" (some (.ok []))
    (some (.ok (.obj [("baseUrl", .str "https://x.org"),
                      ("files", .arr [.obj [("filename", .str "f.md"),
                                            ("url", .str "https://x.org/a"),
                                            ("title", .str "T")]])])))
    none none [] []

/-- C4 witness directory: a CSV inventory with two data rows. -/
def claim4row1 : Dict :=
  [("URL", .str "https://x.org/1"), ("Title", .str "One"), ("Crawl Date", .str "2025-01-02")]

def claim4row2 : Dict :=
  [("URL", .str "https://x.org/2"), ("Title", .str "Two")]

def claim4wdir : Dir :=
  .mk "oit-site" (some (.ok [claim4row1, claim4row2])) none none none [] []

/-- C2 counterexample directory: a `crawl_summary.json` with one listed
file. -/
def claim2dir : Dir :=
  .mk "olod-site" none none
    (some (.ok (.obj [("base_url", .str "https://olod.uga.edu"),
                      ("files", .arr [.str "notes/my-note.md"])])))
    none [] []

/-- C2 witness directory: a single markdown file. -/
def claim2wdir : Dir :=
  .mk "web" none none none none [⟨"a-b", "docs/web/a-b.md", .ok ""⟩] []

def claim2wpage : Dict := mdPage "file:///docs/web/a-b.md" "A B" "docs/web/a-b.md"

def claim2wsite : Site :=
  { name := "web", pages := [claim2wpage], summary := .obj [],
    crawl_date := .null, is_subdirectory := false }

/-- C5 counterexample directory: a crawl-summary listing a non-`.md` file. -/
def claim5dir : Dir :=
  .mk "caes-main-site" none none
    (some (.ok (.obj [("base_url", .str "https://uga.edu"),
                      ("files", .arr [.str "notes/data.txt"])])))
    none [] []

/-- C5 witness crawl-summary and directory: the spec's worked example. -/
def claim5wsm : Json :=
  .obj [("base_url", .str "https://uga.edu"),
        ("files", .arr [.str "notes/my-page.md"])]

def claim5wdir : Dir :=
  .mk "extension-site" none none (some (.ok claim5wsm)) none [] []

/-- C6: a parent `crawl_summary.json` with a `categories` entry for the
subdirectory `benefits`. -/
def claim6psum : Json :=
  .obj [("crawl_date", .str "2025-01-01T00:00:00Z"),
        ("categories", .obj [("benefits", .obj [("articles", .arr
          [.obj [("url", .str "https://td.uga.edu/a1"), ("title", .str "A1")]])])])]

def claim6dir : Dir := .mk "benefits" none none none none [] []

def claim6page : Dict :=
  teamdynamixPage "benefits"
    (.obj [("url", .str "https://td.uga.edu/a1"), ("title", .str "A1")])

/-- C3 counterexample tree: a directory named `dropbox` at depth 2 makes
the traversal recurse a third level down. -/
def claim3inner : Dir := .mk "inner" none none none none [⟨"a", "p/a.md", .ok ""⟩] []

def claim3mid : Dir := .mk "dropbox" none none none none [] [claim3inner]

def claim3top : Dir := .mk "dropbox" none none none none [] [claim3mid]

def claim3root : Dir := .mk "docs" none none none none [] [claim3top]

def claim3innerSite : Site :=
  { name := "dropbox/dropbox/inner", pages := [mdPage "file:///p/a.md" "A" "p/a.md"],
    summary := .obj [], crawl_date := .null, is_subdirectory := true }

/-- C3 witness tree: a two-level tree with no allow-listed name below the
first level. -/
def claim3winner : Dir := .mk "payroll" none none none none [⟨"b", "q/b.md", .ok ""⟩] []

def claim3wtop : Dir := .mk "teamdynamix" none none none none [] [claim3winner]

def claim3wroot : Dir := .mk "docs" none none none none [] [claim3wtop]

def claim3wsite : Site :=
  { name := "teamdynamix/payroll", pages := [mdPage "file:///q/b.md" "B" "q/b.md"],
    summary := .obj [], crawl_date := .null, is_subdirectory := true }

/-- C8 counterexample tree: an empty `benefits` directory under
`teamdynamix` whose parent crawl-summary lists it in `categories`. -/
def claim8psum : Json :=
  .obj [("crawl_date", .str "2025-02-02T00:00:00Z"),
        ("categories", .obj [("benefits", .obj [("articles", .arr
          [.obj [("url", .str "https://td.uga.edu/b1"), ("title", .str "B1")]])])])]

def claim8benefits : Dir := .mk "benefits" none none none none [] []

def claim8td : Dir :=
  .mk "teamdynamix" none none (some (.ok claim8psum)) none [] [claim8benefits]

def claim8root : Dir := .mk "docs" none none none none [] [claim8td]

def claim8tdSite : Site :=
  { name := "teamdynamix", pages := [], summary := claim8psum,
    crawl_date := .str "2025-02-02T00:00:00Z", is_subdirectory := false }

def claim8bSite : Site :=
  { name := "teamdynamix/benefits",
    pages := [teamdynamixPage "benefits"
      (.obj [("url", .str "https://td.uga.edu/b1"), ("title", .str "B1")])],
    summary := .obj [], crawl_date := .str "2025-02-02T00:00:00Z",
    is_subdirectory := true }

/-- C8 witness directory: one markdown file. -/
def claim8wdir : Dir := .mk "webres" none none none none [⟨"c", "r/c.md", .ok ""⟩] []

def claim8wsite : Site :=
  { name := "webres", pages := [mdPage "file:///r/c.md" "C" "r/c.md"],
    summary := .obj [], crawl_date := .null, is_subdirectory := false }

/-- C9 witness directory: a malformed `crawl_inventory.csv`. -/
def claim9baddir : Dir := .mk "bad" (some (.error ())) none none none [] []

/-- C10 witness directory: a CSV that sets a timestamp and base URL, next
to a `_metadata.json` with no `crawledAt`, no `baseUrl` and an empty
`files` list. -/
def claim10md : Json := .obj [("files", .arr [])]

def claim10dir : Dir :=
  .mk "intranet"
    (some (.ok [[("URL", .str "https://in.uga.edu/x"),
                 ("Crawl Date", .str "2024-12-31")]]))
    (some (.ok claim10md)) none none [] []

/-- Names throughout the tree contain no `/` (true of any real directory
tree). -/
inductive CleanNames : Dir → Prop where
  | intro (n : String) (csv : Option (Except Unit (List Dict)))
      (md cs api : Option (Except Unit Json)) (mds : List MdFile) (subs : List Dir) :
      n.data.count '/' = 0 →
      (∀ c ∈ subs, CleanNames c) →
      CleanNames (.mk n csv md cs api mds subs)

/-- Every strict descendant of the directory has a name outside the
recursion allow-list. -/
inductive DeepAvoidsAllow : Dir → Prop where
  | intro (n : String) (csv : Option (Except Unit (List Dict)))
      (md cs api : Option (Except Unit Json)) (mds : List MdFile) (subs : List Dir) :
      (∀ c ∈ subs, c.name ∉ allowList) →
      (∀ c ∈ subs, DeepAvoidsAllow c) →
      DeepAvoidsAllow (.mk n csv md cs api mds subs)

/-! ## Helper lemmas -/

theorem ok_bind {α β : Type} (a : α) (f : α → Except Unit β) :
    (Except.ok a >>= f : Except Unit β) = f a := rfl

theorem error_bind {α β : Type} (e : Unit) (f : α → Except Unit β) :
    (Except.error e >>= f : Except Unit β) = .error e := rfl

/-- The metadata step appends no page when pages already exist. -/
theorem stage2_pages_stable {pn : String} {item : Dir} {s1 s2 : Site}
    (h1 : stage1 pn item = .ok s1) (h2 : stage2 pn item = .ok s2)
    (hne : s1.pages ≠ []) : s2.pages = s1.pages := by
  cases hm : item.metadataJson with
  | none =>
    simp only [stage2, h1, ok_bind, hm] at h2
    cases h2
    rfl
  | some r =>
    cases r with
    | error e => simp only [stage2, h1, ok_bind, hm] at h2; simp at h2
    | ok md =>
      simp only [stage2, h1, ok_bind, hm, metadataStep] at h2
      split at h2
      · split at h2
        · rename_i hemp
          simp at hemp
          exact absurd hemp hne
        · cases h2
          rfl
      · simp at h2

/-- The crawl-summary step appends no page when pages already exist. -/
theorem stage3_pages_stable {pn : String} {item : Dir} {s2 s3 : Site}
    (h2 : stage2 pn item = .ok s2) (h3 : stage3 pn item = .ok s3)
    (hne : s2.pages ≠ []) : s3.pages = s2.pages := by
  unfold stage3 at h3
  rw [h2, ok_bind] at h3
  rw [if_neg (by simpa using hne)] at h3
  cases h3
  rfl

/-- The API-processing step appends no page when pages already exist. -/
theorem stage4_pages_stable {pn : String} {item : Dir} {s3 s4 : Site}
    (h3 : stage3 pn item = .ok s3) (h4 : stage4 pn item = .ok s4)
    (hne : s3.pages ≠ []) : s4.pages = s3.pages := by
  unfold stage4 at h4
  rw [h3, ok_bind] at h4
  have : s3.pages.isEmpty = false := by simpa using hne
  rw [if_neg (by simp [this])] at h4
  cases h4
  rfl

/-- The TeamDynamix step appends no page when pages already exist. -/
theorem stage5_pages_stable {pcs : Option (Except Unit Json)} {pn : String}
    {item : Dir} {s4 s5 : Site}
    (h4 : stage4 pn item = .ok s4) (h5 : stage5 pcs pn item = .ok s5)
    (hne : s4.pages ≠ []) : s5.pages = s4.pages := by
  unfold stage5 at h5
  rw [h4, ok_bind] at h5
  have : s4.pages.isEmpty = false := by simpa using hne
  rw [if_neg (by simp [this])] at h5
  cases h5
  rfl

/-- The markdown fallback appends no page when pages already exist. -/
theorem processItem_pages_stable {pcs : Option (Except Unit Json)} {pn : String}
    {item : Dir} {s5 s : Site}
    (h5 : stage5 pcs pn item = .ok s5) (h : processItem pcs pn item = .ok s)
    (hne : s5.pages ≠ []) : s = s5 := by
  unfold processItem at h
  rw [h5, ok_bind] at h
  rw [if_neg (by simpa using hne)] at h
  cases h
  rfl

theorem processItem_ok_stage5 {pcs : Option (Except Unit Json)} {pn : String}
    {item : Dir} {s : Site} (h : processItem pcs pn item = .ok s) :
    ∃ t, stage5 pcs pn item = .ok t := by
  unfold processItem at h
  cases h5 : stage5 pcs pn item with
  | error e => rw [h5, error_bind] at h; simp at h
  | ok t => exact ⟨t, rfl⟩

theorem stage5_ok_stage4 {pcs : Option (Except Unit Json)} {pn : String}
    {item : Dir} {s : Site} (h : stage5 pcs pn item = .ok s) :
    ∃ t, stage4 pn item = .ok t := by
  unfold stage5 at h
  cases h4 : stage4 pn item with
  | error e => rw [h4, error_bind] at h; simp at h
  | ok t => exact ⟨t, rfl⟩

theorem stage4_ok_stage3 {pn : String} {item : Dir} {s : Site}
    (h : stage4 pn item = .ok s) : ∃ t, stage3 pn item = .ok t := by
  unfold stage4 at h
  cases h3 : stage3 pn item with
  | error e => rw [h3, error_bind] at h; simp at h
  | ok t => exact ⟨t, rfl⟩

theorem stage3_ok_stage2 {pn : String} {item : Dir} {s : Site}
    (h : stage3 pn item = .ok s) : ∃ t, stage2 pn item = .ok t := by
  unfold stage3 at h
  cases h2 : stage2 pn item with
  | error e => rw [h2, error_bind] at h; simp at h
  | ok t => exact ⟨t, rfl⟩

theorem stage2_ok_stage1 {pn : String} {item : Dir} {s : Site}
    (h : stage2 pn item = .ok s) : ∃ t, stage1 pn item = .ok t := by
  unfold stage2 at h
  cases h1 : stage1 pn item with
  | error e => rw [h1, error_bind] at h; simp at h
  | ok t => exact ⟨t, rfl⟩

/-- Once the CSV step produced pages, the run's final pages are exactly
those pages. -/
theorem pages_stable_from_stage1 {pcs : Option (Except Unit Json)} {pn : String}
    {item : Dir} {s1 s : Site}
    (h1 : stage1 pn item = .ok s1) (hne : s1.pages ≠ [])
    (h : processItem pcs pn item = .ok s) : s.pages = s1.pages := by
  obtain ⟨s5, h5⟩ := processItem_ok_stage5 h
  obtain ⟨s4, h4⟩ := stage5_ok_stage4 h5
  obtain ⟨s3, h3⟩ := stage4_ok_stage3 h4
  obtain ⟨s2, h2⟩ := stage3_ok_stage2 h3
  have e2 : s2.pages = s1.pages := stage2_pages_stable h1 h2 hne
  have e3 : s3.pages = s2.pages := stage3_pages_stable h2 h3 (e2 ▸ hne)
  have e4 : s4.pages = s3.pages := stage4_pages_stable h3 h4 (e3 ▸ e2 ▸ hne)
  have e5 : s5.pages = s4.pages := stage5_pages_stable h4 h5 (e4 ▸ e3 ▸ e2 ▸ hne)
  have efin : s = s5 := processItem_pages_stable h5 h (e5 ▸ e4 ▸ e3 ▸ e2 ▸ hne)
  rw [efin, e5, e4, e3, e2]

/-- Once pages exist after the metadata step, the final pages are exactly
those pages. -/
theorem pages_stable_from_stage2 {pcs : Option (Except Unit Json)} {pn : String}
    {item : Dir} {s2 s : Site}
    (h2 : stage2 pn item = .ok s2) (hne : s2.pages ≠ [])
    (h : processItem pcs pn item = .ok s) : s.pages = s2.pages := by
  obtain ⟨s5, h5⟩ := processItem_ok_stage5 h
  obtain ⟨s4, h4⟩ := stage5_ok_stage4 h5
  obtain ⟨s3, h3⟩ := stage4_ok_stage3 h4
  have e3 : s3.pages = s2.pages := stage3_pages_stable h2 h3 hne
  have e4 : s4.pages = s3.pages := stage4_pages_stable h3 h4 (e3 ▸ hne)
  have e5 : s5.pages = s4.pages := stage5_pages_stable h4 h5 (e4 ▸ e3 ▸ hne)
  have efin : s = s5 := processItem_pages_stable h5 h (e5 ▸ e4 ▸ e3 ▸ hne)
  rw [efin, e5, e4, e3]

/-- Once pages exist after the crawl-summary step, the final pages are
exactly those pages. -/
theorem pages_stable_from_stage3 {pcs : Option (Except Unit Json)} {pn : String}
    {item : Dir} {s3 s : Site}
    (h3 : stage3 pn item = .ok s3) (hne : s3.pages ≠ [])
    (h : processItem pcs pn item = .ok s) : s.pages = s3.pages := by
  obtain ⟨s5, h5⟩ := processItem_ok_stage5 h
  obtain ⟨s4, h4⟩ := stage5_ok_stage4 h5
  have e4 : s4.pages = s3.pages := stage4_pages_stable h3 h4 hne
  have e5 : s5.pages = s4.pages := stage5_pages_stable h4 h5 (e4 ▸ hne)
  have efin : s = s5 := processItem_pages_stable h5 h (e5 ▸ e4 ▸ hne)
  rw [efin, e5, e4]

/-- Once pages exist after the API-processing step, the final pages are
exactly those pages. -/
theorem pages_stable_from_stage4 {pcs : Option (Except Unit Json)} {pn : String}
    {item : Dir} {s4 s : Site}
    (h4 : stage4 pn item = .ok s4) (hne : s4.pages ≠ [])
    (h : processItem pcs pn item = .ok s) : s.pages = s4.pages := by
  obtain ⟨s5, h5⟩ := processItem_ok_stage5 h
  have e5 : s5.pages = s4.pages := stage5_pages_stable h4 h5 hne
  have efin : s = s5 := processItem_pages_stable h5 h (e5 ▸ hne)
  rw [efin, e5]

/-- Once pages exist after the TeamDynamix step, the final pages are
exactly those pages. -/
theorem pages_stable_from_stage5 {pcs : Option (Except Unit Json)} {pn : String}
    {item : Dir} {s5 s : Site}
    (h5 : stage5 pcs pn item = .ok s5) (hne : s5.pages ≠ [])
    (h : processItem pcs pn item = .ok s) : s.pages = s5.pages := by
  have efin : s = s5 := processItem_pages_stable h5 h hne
  rw [efin]

/-- C1: the per-directory sources are tried in the fixed order CSV
inventory, JSON metadata, JSON crawl-summary, API-processing-summary,
parent crawl-summary categories, markdown fallback (the order in which
`stage1`..`stage5` and the fallback compose into `processItem`), and once
any step has appended at least one Page to the directory's record, no
subsequent step appends any Page: whenever the state after step `k` has a
non-empty page list, the final page list is exactly that list. -/
theorem claim1_source_order (pcs : Option (Except Unit Json)) (pn : String) (item : Dir) :
    (∀ s1 s, stage1 pn item = .ok s1 → s1.pages ≠ [] →
      processItem pcs pn item = .ok s → s.pages = s1.pages) ∧
    (∀ s2 s, stage2 pn item = .ok s2 → s2.pages ≠ [] →
      processItem pcs pn item = .ok s → s.pages = s2.pages) ∧
    (∀ s3 s, stage3 pn item = .ok s3 → s3.pages ≠ [] →
      processItem pcs pn item = .ok s → s.pages = s3.pages) ∧
    (∀ s4 s, stage4 pn item = .ok s4 → s4.pages ≠ [] →
      processItem pcs pn item = .ok s → s.pages = s4.pages) ∧
    (∀ s5 s, stage5 pcs pn item = .ok s5 → s5.pages ≠ [] →
      processItem pcs pn item = .ok s → s.pages = s5.pages) :=
  ⟨fun _ _ h1 hne h => pages_stable_from_stage1 h1 hne h,
   fun _ _ h2 hne h => pages_stable_from_stage2 h2 hne h,
   fun _ _ h3 hne h => pages_stable_from_stage3 h3 hne h,
   fun _ _ h4 hne h => pages_stable_from_stage4 h4 hne h,
   fun _ _ h5 hne h => pages_stable_from_stage5 h5 hne h⟩

theorem claim1_source_order_witness :
    (processItem none "" claim1dir).map Site.pages = .ok [claim1row] := by
  obtain ⟨s, hs⟩ : ∃ s, processItem none "" claim1dir = .ok s := ⟨_, rfl⟩
  have h1 : stage1 "" claim1dir = .ok (csvStep (initSite "" "abo-site") [claim1row]) := rfl
  have hp1 : (csvStep (initSite "" "abo-site") [claim1row]).pages = [claim1row] := rfl
  have hne : (csvStep (initSite "" "abo-site") [claim1row]).pages ≠ [] := by
    rw [hp1]
    exact List.cons_ne_nil _ _
  have hfin := (claim1_source_order none "" claim1dir).1 _ s h1 hne hs
  rw [hs]
  simp only [Except.map]
  rw [hfin, hp1]

/-- The CSV step appends exactly the parsed rows to the page list. -/
theorem csvStep_pages (s : Site) (rows : List Dict) :
    (csvStep s rows).pages = s.pages ++ rows := by
  unfold csvStep
  cases rows with
  | nil => rfl
  | cons r rs =>
    dsimp only
    repeat' split
    all_goals rfl

/-- C4 counterexample: a directory with a valid `crawl_inventory.csv`
holding zero data rows, next to a `_metadata.json` with one file entry,
ends with one Page — so the Page count does not equal the data-row count
of the CSV. -/
theorem claim4_csv_counterexample :
    claim4dir.csvInv = some (.ok []) ∧
    (processItem none "" claim4dir).map (fun s => s.pages.length) = .ok 1 ∧
    (1 : Nat) ≠ 0 :=
  ⟨rfl, rfl, by decide⟩

/-- C4 (amended): for every directory whose `crawl_inventory.csv` has at
least one data row, the resulting page count equals the data-row count and
each Page's `URL` field equals the corresponding row's `URL` column
verbatim.  (With zero data rows, later sources may still contribute
pages.) -/
theorem claim4_csv_amended {pcs : Option (Except Unit Json)} {pn : String}
    {item : Dir} {rows : List Dict} {s : Site}
    (hcsv : item.csvInv = some (.ok rows)) (hrows : rows ≠ [])
    (hrun : processItem pcs pn item = .ok s) :
    s.pages.length = rows.length ∧
    s.pages.map (fun p => dget p "URL") = rows.map (fun r => dget r "URL") := by
  have h1 : stage1 pn item = .ok (csvStep (initSite pn item.name) rows) := by
    unfold stage1
    rw [hcsv]
  have hp : (csvStep (initSite pn item.name) rows).pages = rows := by
    rw [csvStep_pages]
    rfl
  have hne : (csvStep (initSite pn item.name) rows).pages ≠ [] := by
    rw [hp]
    exact hrows
  have hfin := pages_stable_from_stage1 h1 hne hrun
  rw [hfin, hp]
  exact ⟨rfl, rfl⟩

theorem claim4_csv_amended_witness :
    (processItem none "" claim4wdir).map
        (fun s => (s.pages.length, s.pages.map (fun p => dget p "URL"))) =
      .ok (2, [Json.str "https://x.org/1", Json.str "https://x.org/2"]) := by
  obtain ⟨s, hs⟩ : ∃ s, processItem none "" claim4wdir = .ok s := ⟨_, rfl⟩
  have h := claim4_csv_amended
    (show claim4wdir.csvInv = some (.ok [claim4row1, claim4row2]) from rfl)
    (List.cons_ne_nil _ _) hs
  rw [hs]
  simp only [Except.map]
  rw [h.1, h.2]
  rfl

/-- The CSV step is the only source of pages after stage 1. -/
theorem stage1_pages_from_csv {pn : String} {item : Dir} {s1 : Site}
    (h1 : stage1 pn item = .ok s1) :
    ∀ p ∈ s1.pages, ∃ rows, item.csvInv = some (.ok rows) ∧ p ∈ rows := by
  intro p hp
  cases hc : item.csvInv with
  | none =>
    simp only [stage1, hc] at h1
    cases h1
    simp [initSite] at hp
  | some r =>
    cases r with
    | error e => simp only [stage1, hc] at h1; simp at h1
    | ok rows =>
      simp only [stage1, hc] at h1
      cases h1
      refine ⟨rows, rfl, ?_⟩
      rw [csvStep_pages] at hp
      simpa [initSite] using hp

/-- Pages added by the metadata step carry the `Source` tag `metadata`. -/
theorem stage2_pages_sub {pn : String} {item : Dir} {s1 s2 : Site}
    (h1 : stage1 pn item = .ok s1) (h2 : stage2 pn item = .ok s2) :
    ∀ p ∈ s2.pages, p ∈ s1.pages ∨ dget p "Source" = .str "metadata" := by
  intro p hp
  cases hm : item.metadataJson with
  | none =>
    simp only [stage2, h1, ok_bind, hm] at h2
    cases h2
    exact .inl hp
  | some r =>
    cases r with
    | error e => simp only [stage2, h1, ok_bind, hm] at h2; simp at h2
    | ok md =>
      simp only [stage2, h1, ok_bind, hm, metadataStep] at h2
      split at h2
      · split at h2
        · cases h2
          rcases List.mem_append.1 hp with h | h
          · exact .inl h
          · right
            obtain ⟨fi, _, rfl⟩ := List.mem_map.1 h
            rfl
        · cases h2
          exact .inl hp
      · simp at h2

/-- Pages added by the crawl-summary step carry the `Source` tag `file`. -/
theorem stage3_pages_sub {pn : String} {item : Dir} {s2 s3 : Site}
    (h2 : stage2 pn item = .ok s2) (h3 : stage3 pn item = .ok s3) :
    ∀ p ∈ s3.pages, p ∈ s2.pages ∨ dget p "Source" = .str "file" := by
  intro p hp
  unfold stage3 at h3
  rw [h2, ok_bind] at h3
  split at h3
  · cases hc : item.crawlSummary with
    | none =>
      rw [hc] at h3
      cases h3
      exact .inl hp
    | some r =>
      cases r with
      | error e => rw [hc] at h3; simp at h3
      | ok sm =>
        rw [hc] at h3
        cases h3
        unfold summaryStep at hp
        try dsimp only at hp
        split at hp
        · rcases List.mem_append.1 hp with h | h
          · exact .inl h
          · right
            obtain ⟨fp, _, rfl⟩ := List.mem_map.1 h
            rfl
        · exact .inl hp
  · cases h3
    exact .inl hp

/-- Pages added by the API-processing step carry the `Source` tag
`dropbox`. -/
theorem stage4_pages_sub {pn : String} {item : Dir} {s3 s4 : Site}
    (h3 : stage3 pn item = .ok s3) (h4 : stage4 pn item = .ok s4) :
    ∀ p ∈ s4.pages, p ∈ s3.pages ∨ dget p "Source" = .str "dropbox" := by
  intro p hp
  unfold stage4 at h4
  rw [h3, ok_bind] at h4
  split at h4
  · cases ha : item.apiSummary with
    | none =>
      rw [ha] at h4
      cases h4
      exact .inl hp
    | some r =>
      cases r with
      | error e => rw [ha] at h4; simp at h4
      | ok api =>
        rw [ha] at h4
        cases h4
        unfold apiStep at hp
        try dsimp only at hp
        rcases List.mem_append.1 hp with h | h
        · exact .inl h
        · right
          obtain ⟨fi, _, hfi⟩ := List.mem_filterMap.1 h
          try dsimp only at hfi
          split at hfi
          · simp at hfi
          · cases hfi
            rfl
  · cases h4
    exact .inl hp

/-- Pages added by the TeamDynamix step carry the `Source` tag
`teamdynamix`. -/
theorem stage5_pages_sub {pcs : Option (Except Unit Json)} {pn : String}
    {item : Dir} {s4 s5 : Site}
    (h4 : stage4 pn item = .ok s4) (h5 : stage5 pcs pn item = .ok s5) :
    ∀ p ∈ s5.pages, p ∈ s4.pages ∨ dget p "Source" = .str "teamdynamix" := by
  intro p hp
  unfold stage5 at h5
  rw [h4, ok_bind] at h5
  split at h5
  · cases hc : pcs with
    | none =>
      rw [hc] at h5
      cases h5
      exact .inl hp
    | some r =>
      cases r with
      | error e => rw [hc] at h5; simp at h5
      | ok psum =>
        rw [hc] at h5
        cases h5
        unfold teamdynamixStep at hp
        try dsimp only at hp
        split at hp
        · rcases List.mem_append.1 hp with h | h
          · exact .inl h
          · right
            obtain ⟨a, _, rfl⟩ := List.mem_map.1 h
            rfl
        · exact .inl hp
  · cases h5
    exact .inl hp

/-- Every markdown-fallback page carries the `Source` tag `direct`. -/
theorem processMdFile_source (m : MdFile) :
    dget (processMdFile m) "Source" = .str "direct" := by
  unfold processMdFile
  repeat' split
  all_goals try rfl
  all_goals try dsimp only
  all_goals repeat' split
  all_goals rfl

/-- Pages added by the markdown fallback carry the `Source` tag `direct`. -/
theorem processItem_pages_sub {pcs : Option (Except Unit Json)} {pn : String}
    {item : Dir} {s5 s : Site}
    (h5 : stage5 pcs pn item = .ok s5) (h : processItem pcs pn item = .ok s) :
    ∀ p ∈ s.pages, p ∈ s5.pages ∨ dget p "Source" = .str "direct" := by
  intro p hp
  unfold processItem at h
  rw [h5, ok_bind] at h
  split at h
  · cases h
    unfold markdownStep at hp
    split at hp
    · exact .inl hp
    · rcases List.mem_append.1 hp with hh | hh
      · exact .inl hh
      · right
        obtain ⟨m, _, rfl⟩ := List.mem_map.1 hh
        exact processMdFile_source m
  · cases h
    exact .inl hp

/-- C2 counterexample: a page synthesized from the crawl-summary file list
carries the `Source` tag `file`, not `summary-file` as the claim states
(likewise API pages are tagged `dropbox`, not `api`, and CSV rows pass
through with no tag added by the generator). -/
theorem claim2_provenance_counterexample :
    (processItem none "" claim2dir).map (fun s => s.pages.map (fun p => dget p "Source")) =
      .ok [Json.str "file"] ∧
    "file" ≠ "summary-file" :=
  ⟨rfl, by decide⟩

/-- C2 (amended): every Page of a normalized Site either comes verbatim
from the directory's CSV inventory (the generator adds no tag to CSV rows)
or carries one of the five literal provenance tags written by the
synthesizing steps: `metadata` (metadata file), `file` (crawl-summary file
list), `dropbox` (API-processing summary), `teamdynamix` (parent
crawl-summary categories), or `direct` (markdown fallback). -/
theorem claim2_provenance_amended {pcs : Option (Except Unit Json)} {pn : String}
    {item : Dir} {s : Site} (hrun : processItem pcs pn item = .ok s) :
    ∀ p ∈ s.pages,
      (∃ rows, item.csvInv = some (.ok rows) ∧ p ∈ rows) ∨
      dget p "Source" = .str "metadata" ∨ dget p "Source" = .str "file" ∨
      dget p "Source" = .str "dropbox" ∨ dget p "Source" = .str "teamdynamix" ∨
      dget p "Source" = .str "direct" := by
  intro p hp
  obtain ⟨s5, h5⟩ := processItem_ok_stage5 hrun
  obtain ⟨s4, h4⟩ := stage5_ok_stage4 h5
  obtain ⟨s3, h3⟩ := stage4_ok_stage3 h4
  obtain ⟨s2, h2⟩ := stage3_ok_stage2 h3
  obtain ⟨s1, h1⟩ := stage2_ok_stage1 h2
  rcases processItem_pages_sub h5 hrun p hp with hp5 | hdir
  · rcases stage5_pages_sub h4 h5 p hp5 with hp4 | htd
    · rcases stage4_pages_sub h3 h4 p hp4 with hp3 | hdb
      · rcases stage3_pages_sub h2 h3 p hp3 with hp2 | hfl
        · rcases stage2_pages_sub h1 h2 p hp2 with hp1 | hmd
          · exact .inl (stage1_pages_from_csv h1 p hp1)
          · exact .inr (.inl hmd)
        · exact .inr (.inr (.inl hfl))
      · exact .inr (.inr (.inr (.inl hdb)))
    · exact .inr (.inr (.inr (.inr (.inl htd))))
  · exact .inr (.inr (.inr (.inr (.inr hdir))))

theorem claim2_provenance_amended_witness :
    (∃ rows, claim2wdir.csvInv = some (.ok rows) ∧ claim2wpage ∈ rows) ∨
    dget claim2wpage "Source" = .str "metadata" ∨
    dget claim2wpage "Source" = .str "file" ∨
    dget claim2wpage "Source" = .str "dropbox" ∨
    dget claim2wpage "Source" = .str "teamdynamix" ∨
    dget claim2wpage "Source" = .str "direct" := by
  have hs : processItem none "" claim2wdir = .ok claim2wsite := rfl
  exact claim2_provenance_amended hs claim2wpage (List.mem_cons_self _ _)

/-- C5 counterexample: for a listed file `notes/data.txt` the code yields
URL `https://uga.edu/data.txt` and title `Data.Txt` — the literal
substring `.md` is removed, not "the extension", and the title is derived
from that string, not from the stem. -/
theorem claim5_summary_counterexample :
    (processItem none "" claim5dir).map
        (fun s => s.pages.map (fun p => ((dget p "URL").pystr, (dget p "Title").pystr))) =
      .ok [("https://uga.edu/data.txt", "Data.Txt")] ∧
    "https://uga.edu/data.txt" ≠ "https://uga.edu/data" ∧
    "Data.Txt" ≠ "Data" :=
  ⟨rfl, by decide, by decide⟩

/-- C5 (amended): for every file path listed in the `files` list of a
directory's `crawl_summary.json` (when the earlier steps produced no
pages), the synthesized Page has URL `<base_url>/<file name with every
occurrence of the substring ".md" removed>` and a title obtained from that
same string by replacing hyphens with spaces and title-casing; for `.md`
files with a single extension this coincides with the claim (so
`notes/my-page.md` with base `https://uga.edu` yields URL
`https://uga.edu/my-page` and title `My Page`). -/
theorem claim5_summary_amended {pn : String} {item : Dir} {s2 s3 : Site} {sm : Json}
    (h2 : stage2 pn item = .ok s2) (hemp : s2.pages = [])
    (hc : item.crawlSummary = some (.ok sm)) (hf : sm.hasKey "files" = true)
    (h3 : stage3 pn item = .ok s3) :
    s3.pages.map (fun p => dget p "URL") =
      (sm.getD "files" (.arr [])).asArr.map
        (fun fp => .str ((sm.getD "base_url" (.str "")).pystr ++ "/" ++
          pyReplace (pathName fp.pystr) ".md" "")) ∧
    s3.pages.map (fun p => dget p "Title") =
      (sm.getD "files" (.arr [])).asArr.map
        (fun fp => .str (pyTitle (pyReplace (pyReplace (pathName fp.pystr) ".md" "") "-" " "))) := by
  unfold stage3 at h3
  rw [h2, ok_bind] at h3
  rw [if_pos (by simp [hemp])] at h3
  rw [hc] at h3
  cases h3
  unfold summaryStep
  simp only [hemp, hf, List.isEmpty_nil, Bool.and_self, if_true, List.nil_append]
  constructor <;> · rw [List.map_map]; rfl

theorem claim5_summary_amended_witness :
    (stage3 "" claim5wdir).map (fun s => s.pages.map (fun p => dget p "URL")) =
      .ok [Json.str "https://uga.edu/my-page"] ∧
    (stage3 "" claim5wdir).map (fun s => s.pages.map (fun p => dget p "Title")) =
      .ok [Json.str "My Page"] := by
  obtain ⟨s3, h3⟩ : ∃ t, stage3 "" claim5wdir = .ok t := ⟨_, rfl⟩
  have h := claim5_summary_amended
    (show stage2 "" claim5wdir = .ok (initSite "" "extension-site") from rfl) rfl
    (show claim5wdir.crawlSummary = some (.ok claim5wsm) from rfl) rfl h3
  refine ⟨?_, ?_⟩
  · rw [h3]
    simp only [Except.map]
    rw [h.1]
    rfl
  · rw [h3]
    simp only [Except.map]
    rw [h.2]
    rfl

/-- C6 counterexample: a page synthesized from the parent teamdynamix
crawl-summary categories has local file path
`docs/teamdynamix/benefits`, not `teamdynamix/benefits` as the claim
states. -/
theorem claim6_teamdynamix_counterexample :
    (processItem (some (.ok claim6psum)) "teamdynamix" claim6dir).map
        (fun s => s.pages.map (fun p => (dget p "Local File").pystr)) =
      .ok ["docs/teamdynamix/benefits"] ∧
    "docs/teamdynamix/benefits" ≠ "teamdynamix/benefits" :=
  ⟨rfl, by decide⟩

/-- C6 (amended): every page synthesized by the TeamDynamix step has local
file path `docs/<parent>/<this-directory-name>`, i.e.
`docs/teamdynamix/<name>` (the step only runs for children of
`teamdynamix`). -/
theorem claim6_teamdynamix_amended (nm : String) (site : Site) (psum : Json) :
    ∀ p ∈ (teamdynamixStep nm site psum).pages,
      p ∈ site.pages ∨ dget p "Local File" = .str ("docs/teamdynamix/" ++ nm) := by
  intro p hp
  unfold teamdynamixStep at hp
  try dsimp only at hp
  split at hp
  · rcases List.mem_append.1 hp with h | h
    · exact .inl h
    · right
      obtain ⟨a, _, rfl⟩ := List.mem_map.1 h
      rfl
  · exact .inl hp

theorem claim6_teamdynamix_amended_witness :
    claim6page ∈ (teamdynamixStep "benefits" (initSite "teamdynamix" "benefits") claim6psum).pages ∧
    (claim6page ∈ (initSite "teamdynamix" "benefits").pages ∨
     dget claim6page "Local File" = .str ("docs/teamdynamix/" ++ "benefits")) := by
  have hmem : claim6page ∈
      (teamdynamixStep "benefits" (initSite "teamdynamix" "benefits") claim6psum).pages := by
    show claim6page ∈ [claim6page]
    exact List.mem_cons_self _ _
  exact ⟨hmem, claim6_teamdynamix_amended _ _ _ claim6page hmem⟩

/-- Unfolding equation of `scanItems` on the empty list. -/
theorem scanItems_nil (pn : String) (pcs : Option (Except Unit Json)) :
    scanItems pn pcs [] = .ok [] := by
  rw [scanItems]

/-- Unfolding equation of `scanItems` on a cons cell. -/
theorem scanItems_cons (pn : String) (pcs : Option (Except Unit Json))
    (item : Dir) (rest : List Dir) :
    scanItems pn pcs (item :: rest) =
      match processItem pcs pn item with
      | .error e => .error e
      | .ok site =>
        match (if (pn == "" || allowList.contains item.name) = true then
                 scanItems (joinName pn item.name) item.crawlSummary item.subdirs
               else .ok []) with
        | .error e => .error e
        | .ok sub =>
          match scanItems pn pcs rest with
          | .error e => .error e
          | .ok tail =>
            .ok ((if (!site.pages.isEmpty || site.summary.truthy) = true
                  then [(site.name, site)] else []) ++ sub ++ tail) := by
  rw [scanItems]

theorem dir_sizeOf_subdirs_lt (d : Dir) : sizeOf d.subdirs < sizeOf d := by
  cases d
  simp [Dir.subdirs]

theorem data_append (a b : String) : (a ++ b).data = a.data ++ b.data := by
  cases a
  cases b
  rfl

/-- Slash count of a joined site name. -/
theorem count_joinName (pn nm : String) :
    (joinName pn nm).data.count '/' =
      if pn = "" then nm.data.count '/'
      else pn.data.count '/' + 1 + nm.data.count '/' := by
  unfold joinName
  by_cases hpn : pn = ""
  · simp [hpn]
  · rw [if_neg hpn, if_neg hpn, data_append, data_append, List.count_append,
      List.count_append]
    simp [List.count_cons]

theorem CleanNames.name_count {d : Dir} (h : CleanNames d) :
    d.name.data.count '/' = 0 := by
  cases h with
  | intro n csv md cs api mds subs hc hsub => simpa [Dir.name] using hc

theorem CleanNames.subdirs_clean {d : Dir} (h : CleanNames d) :
    ∀ c ∈ d.subdirs, CleanNames c := by
  cases h with
  | intro n csv md cs api mds subs hc hsub => simpa [Dir.subdirs] using hsub

theorem DeepAvoidsAllow.not_allow {d : Dir} (h : DeepAvoidsAllow d) :
    ∀ c ∈ d.subdirs, c.name ∉ allowList := by
  cases h with
  | intro n csv md cs api mds subs hna hsub => simpa [Dir.subdirs] using hna

theorem DeepAvoidsAllow.subdirs_avoid {d : Dir} (h : DeepAvoidsAllow d) :
    ∀ c ∈ d.subdirs, DeepAvoidsAllow c := by
  cases h with
  | intro n csv md cs api mds subs hna hsub => simpa [Dir.subdirs] using hsub

/-- The CSV step does not change the site name. -/
theorem csvStep_name (s : Site) (rows : List Dict) : (csvStep s rows).name = s.name := by
  unfold csvStep
  cases rows with
  | nil => rfl
  | cons r rs =>
    dsimp only
    repeat' split
    all_goals rfl

/-- The first stage names the site by joining parent and item names. -/
theorem stage1_name {pn : String} {item : Dir} {s1 : Site}
    (h : stage1 pn item = .ok s1) : s1.name = joinName pn item.name := by
  cases hc : item.csvInv with
  | none =>
    simp only [stage1, hc] at h
    cases h
    rfl
  | some r =>
    cases r with
    | error e => simp only [stage1, hc] at h; simp at h
    | ok rows =>
      simp only [stage1, hc] at h
      cases h
      rw [csvStep_name]
      rfl

/-- The metadata step does not change the site name. -/
theorem stage2_name {pn : String} {item : Dir} {s2 : Site}
    (h2 : stage2 pn item = .ok s2) : s2.name = joinName pn item.name := by
  obtain ⟨s1, h1⟩ := stage2_ok_stage1 h2
  have hn1 := stage1_name h1
  cases hm : item.metadataJson with
  | none =>
    simp only [stage2, h1, ok_bind, hm] at h2
    cases h2
    exact hn1
  | some r =>
    cases r with
    | error e => simp only [stage2, h1, ok_bind, hm] at h2; simp at h2
    | ok md =>
      simp only [stage2, h1, ok_bind, hm, metadataStep] at h2
      split at h2
      · split at h2 <;> · cases h2; exact hn1
      · simp at h2

/-- The crawl-summary step does not change the site name. -/
theorem stage3_name {pn : String} {item : Dir} {s3 : Site}
    (h3 : stage3 pn item = .ok s3) : s3.name = joinName pn item.name := by
  obtain ⟨s2, h2⟩ := stage3_ok_stage2 h3
  have hn2 := stage2_name h2
  unfold stage3 at h3
  rw [h2, ok_bind] at h3
  split at h3
  · cases hc : item.crawlSummary with
    | none => rw [hc] at h3; cases h3; exact hn2
    | some r =>
      cases r with
      | error e => rw [hc] at h3; simp at h3
      | ok sm =>
        rw [hc] at h3
        cases h3
        unfold summaryStep
        try dsimp only
        split <;> exact hn2
  · cases h3
    exact hn2

/-- The API-processing step does not change the site name. -/
theorem stage4_name {pn : String} {item : Dir} {s4 : Site}
    (h4 : stage4 pn item = .ok s4) : s4.name = joinName pn item.name := by
  obtain ⟨s3, h3⟩ := stage4_ok_stage3 h4
  have hn3 := stage3_name h3
  unfold stage4 at h4
  rw [h3, ok_bind] at h4
  split at h4
  · cases ha : item.apiSummary with
    | none => rw [ha] at h4; cases h4; exact hn3
    | some r =>
      cases r with
      | error e => rw [ha] at h4; simp at h4
      | ok api =>
        rw [ha] at h4
        cases h4
        exact hn3
  · cases h4
    exact hn3

/-- The TeamDynamix step does not change the site name. -/
theorem stage5_name {pcs : Option (Except Unit Json)} {pn : String}
    {item : Dir} {s5 : Site}
    (h5 : stage5 pcs pn item = .ok s5) : s5.name = joinName pn item.name := by
  obtain ⟨s4, h4⟩ := stage5_ok_stage4 h5
  have hn4 := stage4_name h4
  unfold stage5 at h5
  rw [h4, ok_bind] at h5
  split at h5
  · cases hc : pcs with
    | none => rw [hc] at h5; cases h5; exact hn4
    | some r =>
      cases r with
      | error e => rw [hc] at h5; simp at h5
      | ok psum =>
        rw [hc] at h5
        cases h5
        unfold teamdynamixStep
        try dsimp only
        split <;> exact hn4
  · cases h5
    exact hn4

/-- The produced Site record is named by joining parent and item names. -/
theorem processItem_name {pcs : Option (Except Unit Json)} {pn : String}
    {item : Dir} {s : Site}
    (h : processItem pcs pn item = .ok s) : s.name = joinName pn item.name := by
  obtain ⟨s5, h5⟩ := processItem_ok_stage5 h
  have hn5 := stage5_name h5
  unfold processItem at h
  rw [h5, ok_bind] at h
  split at h
  · cases h
    unfold markdownStep
    split <;> exact hn5
  · cases h
    exact hn5

/-- C3 counterexample: a subtree `dropbox/dropbox/inner` (an allow-listed
name repeated at depth 2) is traversed three levels deep, producing a Site
whose name contains two `/` separators. -/
theorem claim3_traversal_counterexample :
    (readCrawlData claim3root).map (fun l => l.map Prod.fst) =
      .ok ["dropbox/dropbox/inner"] ∧
    ("dropbox/dropbox/inner".data.count '/') = 2 := by
  have hInner : scanItems "dropbox/dropbox" none [claim3inner] =
      .ok [("dropbox/dropbox/inner", claim3innerSite)] := by
    rw [scanItems_cons]
    rw [show processItem none "dropbox/dropbox" claim3inner = .ok claim3innerSite from rfl]
    rw [scanItems_nil]
    rfl
  have hMid : scanItems "dropbox" none [claim3mid] =
      .ok [("dropbox/dropbox/inner", claim3innerSite)] := by
    rw [scanItems_cons]
    rw [show processItem none "dropbox" claim3mid = .ok (initSite "dropbox" "dropbox") from rfl]
    rw [scanItems_nil]
    have hInner' : scanItems (joinName "dropbox" claim3mid.name) claim3mid.crawlSummary
        claim3mid.subdirs = .ok [("dropbox/dropbox/inner", claim3innerSite)] := hInner
    rw [hInner']
    rfl
  have hTop : scanItems "" none [claim3top] =
      .ok [("dropbox/dropbox/inner", claim3innerSite)] := by
    rw [scanItems_cons]
    rw [show processItem none "" claim3top = .ok (initSite "" "dropbox") from rfl]
    rw [scanItems_nil]
    have hMid' : scanItems (joinName "" claim3top.name) claim3top.crawlSummary
        claim3top.subdirs = .ok [("dropbox/dropbox/inner", claim3innerSite)] := hMid
    rw [hMid']
    rfl
  constructor
  · have hTop' : scanItems "" claim3root.crawlSummary claim3root.subdirs =
        .ok [("dropbox/dropbox/inner", claim3innerSite)] := hTop
    unfold readCrawlData
    rw [hTop']
    rfl
  · rfl

/-- Names of the Sites produced by `scanItems` have at most one `/` when
no allow-listed directory name occurs strictly below the scanned level and
the scan starts at the root (or at a single-component parent whose items
all avoid the allow-list). -/
theorem scanItems_names_bound :
    ∀ (n : Nat) (ds : List Dir) (pn : String) (pcs : Option (Except Unit Json))
      (l : List (String × Site)),
      sizeOf ds ≤ n →
      scanItems pn pcs ds = .ok l →
      (∀ d ∈ ds, CleanNames d) →
      ((pn = "" ∧ ∀ d ∈ ds, DeepAvoidsAllow d) ∨
       (pn.data.count '/' = 0 ∧ ∀ d ∈ ds, d.name ∉ allowList ∧ DeepAvoidsAllow d)) →
      ∀ e ∈ l, e.1.data.count '/' ≤ 1 := by
  intro n
  induction n with
  | zero =>
    intro ds pn pcs l hsz hscan hclean hcase e he
    exfalso
    cases ds <;> simp at hsz
  | succ n ih =>
    intro ds pn pcs l hsz hscan hclean hcase
    cases ds with
    | nil =>
      rw [scanItems_nil] at hscan
      cases hscan
      intro e he
      simp at he
    | cons item rest =>
      rw [scanItems_cons] at hscan
      cases hproc : processItem pcs pn item with
      | error e0 => rw [hproc] at hscan; simp at hscan
      | ok site =>
        rw [hproc] at hscan
        have hname := processItem_name hproc
        have hitemclean : CleanNames item := hclean item (List.mem_cons_self _ _)
        have hsize_item : sizeOf item.subdirs ≤ n := by
          have h1 := dir_sizeOf_subdirs_lt item
          simp only [List.cons.sizeOf_spec] at hsz
          omega
        have hsize_rest : sizeOf rest ≤ n := by
          have h1 := dir_sizeOf_subdirs_lt item
          simp only [List.cons.sizeOf_spec] at hsz
          omega
        have hcount_here : site.name.data.count '/' ≤ 1 := by
          rw [hname, count_joinName]
          rcases hcase with ⟨hpn, _⟩ | ⟨hcnt, _⟩
          · rw [if_pos hpn, hitemclean.name_count]
            omega
          · by_cases hpn : pn = ""
            · rw [if_pos hpn, hitemclean.name_count]
              omega
            · rw [if_neg hpn, hcnt, hitemclean.name_count]
        have hdeep_item : DeepAvoidsAllow item := by
          rcases hcase with ⟨_, hall⟩ | ⟨_, hall⟩
          · exact hall item (List.mem_cons_self _ _)
          · exact (hall item (List.mem_cons_self _ _)).2
        have hclean_rest : ∀ d ∈ rest, CleanNames d :=
          fun d hd => hclean d (List.mem_cons_of_mem _ hd)
        have hcase_rest :
            ((pn = "" ∧ ∀ d ∈ rest, DeepAvoidsAllow d) ∨
             (pn.data.count '/' = 0 ∧ ∀ d ∈ rest, d.name ∉ allowList ∧ DeepAvoidsAllow d)) := by
          rcases hcase with ⟨hpn0, hall⟩ | ⟨hcnt, hall⟩
          · exact .inl ⟨hpn0, fun d hd => hall d (List.mem_cons_of_mem _ hd)⟩
          · exact .inr ⟨hcnt, fun d hd => hall d (List.mem_cons_of_mem _ hd)⟩
        cases hcond : (pn == "" || allowList.contains item.name) with
        | true =>
          rw [if_pos hcond] at hscan
          cases hsub : scanItems (joinName pn item.name) item.crawlSummary item.subdirs with
          | error e0 => rw [hsub] at hscan; simp at hscan
          | ok sub =>
            rw [hsub] at hscan
            cases htail : scanItems pn pcs rest with
            | error e0 => rw [htail] at hscan; simp at hscan
            | ok tail =>
              rw [htail] at hscan
              have hpn : pn = "" := by
                cases hb : (pn == "") with
                | true => exact eq_of_beq hb
                | false =>
                  exfalso
                  have hcontains : allowList.contains item.name = true := by
                    rw [hb] at hcond
                    simpa using hcond
                  have hmem : item.name ∈ allowList := by simpa using hcontains
                  rcases hcase with ⟨hpn0, _⟩ | ⟨_, hall⟩
                  · rw [hpn0] at hb; simp at hb
                  · exact (hall item (List.mem_cons_self _ _)).1 hmem
              have hl : (if (!site.pages.isEmpty || site.summary.truthy) = true
                  then [(site.name, site)] else []) ++ sub ++ tail = l := by
                cases hscan
                rfl
              intro e he
              rw [← hl] at he
              rcases List.mem_append.1 he with h12 | h3
              · rcases List.mem_append.1 h12 with h1 | h2
                · split at h1
                  · cases List.mem_singleton.1 h1
                    simpa using hcount_here
                  · simp at h1
                · refine ih item.subdirs (joinName pn item.name) item.crawlSummary sub
                    hsize_item hsub hitemclean.subdirs_clean ?_ e h2
                  right
                  refine ⟨?_, ?_⟩
                  · rw [count_joinName, if_pos hpn, hitemclean.name_count]
                  · intro c hc
                    exact ⟨hdeep_item.not_allow c hc, hdeep_item.subdirs_avoid c hc⟩
              · exact ih rest pn pcs tail hsize_rest htail hclean_rest hcase_rest e h3
        | false =>
          rw [if_neg (by rw [hcond]; simp)] at hscan
          dsimp only at hscan
          cases htail : scanItems pn pcs rest with
          | error e0 => rw [htail] at hscan; simp at hscan
          | ok tail =>
            rw [htail] at hscan
            have hl : (if (!site.pages.isEmpty || site.summary.truthy) = true
                then [(site.name, site)] else []) ++ [] ++ tail = l := by
              cases hscan
              rfl
            intro e he
            rw [← hl] at he
            rcases List.mem_append.1 he with h12 | h3
            · rcases List.mem_append.1 h12 with h1 | h2
              · split at h1
                · cases List.mem_singleton.1 h1
                  simpa using hcount_here
                · simp at h1
              · simp at h2
            · exact ih rest pn pcs tail hsize_rest htail hclean_rest hcase_rest e h3

/-- C3 (amended): the traversal recurses into every immediate subdirectory
of the root, and further into any visited directory whose name is in the
fixed three-element allow-list — at any depth, not just at the second
level.  Provided no directory strictly below the root's children bears an
allow-listed name (and directory names contain no `/`), no directory more
than two levels below the root is visited and every Site name contains at
most one `/` separator. -/
theorem claim3_traversal_amended (root : Dir) (l : List (String × Site))
    (hscan : readCrawlData root = .ok l)
    (hclean : ∀ d ∈ root.subdirs, CleanNames d)
    (hdeep : ∀ d ∈ root.subdirs, DeepAvoidsAllow d) :
    ∀ e ∈ l, e.1.data.count '/' ≤ 1 :=
  scanItems_names_bound (sizeOf root.subdirs) root.subdirs "" root.crawlSummary l
    (Nat.le_refl _) hscan hclean (.inl ⟨rfl, hdeep⟩)

theorem claim3_traversal_amended_witness :
    readCrawlData claim3wroot = .ok [("teamdynamix/payroll", claim3wsite)] ∧
    ("teamdynamix/payroll".data.count '/') ≤ 1 := by
  have hInner : scanItems "teamdynamix" claim3wtop.crawlSummary claim3wtop.subdirs =
      .ok [("teamdynamix/payroll", claim3wsite)] := by
    show scanItems "teamdynamix" none [claim3winner] = _
    rw [scanItems_cons]
    rw [show processItem none "teamdynamix" claim3winner = .ok claim3wsite from rfl]
    rw [scanItems_nil]
    rfl
  have hscan : readCrawlData claim3wroot = .ok [("teamdynamix/payroll", claim3wsite)] := by
    unfold readCrawlData
    show scanItems "" none [claim3wtop] = _
    rw [scanItems_cons]
    rw [show processItem none "" claim3wtop = .ok (initSite "" "teamdynamix") from rfl]
    rw [scanItems_nil]
    have hInner' : scanItems (joinName "" claim3wtop.name) claim3wtop.crawlSummary
        claim3wtop.subdirs = .ok [("teamdynamix/payroll", claim3wsite)] := hInner
    rw [hInner']
    rfl
  have hcw : CleanNames claim3winner := by
    show CleanNames (.mk "payroll" none none none none [⟨"b", "q/b.md", .ok ""⟩] [])
    refine CleanNames.intro _ _ _ _ _ _ _ (by decide) ?_
    intro c hc
    simp at hc
  have hct : CleanNames claim3wtop := by
    show CleanNames (.mk "teamdynamix" none none none none [] [claim3winner])
    refine CleanNames.intro _ _ _ _ _ _ _ (by decide) ?_
    intro c hc
    have hc' : c = claim3winner := by simpa using hc
    rw [hc']
    exact hcw
  have hdw : DeepAvoidsAllow claim3winner := by
    show DeepAvoidsAllow (.mk "payroll" none none none none [⟨"b", "q/b.md", .ok ""⟩] [])
    refine DeepAvoidsAllow.intro _ _ _ _ _ _ _ ?_ ?_
    · intro c hc
      simp at hc
    · intro c hc
      simp at hc
  have hdt : DeepAvoidsAllow claim3wtop := by
    show DeepAvoidsAllow (.mk "teamdynamix" none none none none [] [claim3winner])
    refine DeepAvoidsAllow.intro _ _ _ _ _ _ _ ?_ ?_
    · intro c hc
      have hc' : c = claim3winner := by simpa using hc
      rw [hc']
      decide
    · intro c hc
      have hc' : c = claim3winner := by simpa using hc
      rw [hc']
      exact hdw
  have hclean : ∀ d ∈ claim3wroot.subdirs, CleanNames d := by
    intro d hd
    have hd' : d = claim3wtop := by simpa [claim3wroot, Dir.subdirs] using hd
    rw [hd']
    exact hct
  have hdeep : ∀ d ∈ claim3wroot.subdirs, DeepAvoidsAllow d := by
    intro d hd
    have hd' : d = claim3wtop := by simpa [claim3wroot, Dir.subdirs] using hd
    rw [hd']
    exact hdt
  refine ⟨hscan, ?_⟩
  exact claim3_traversal_amended claim3wroot _ hscan hclean hdeep
    ("teamdynamix/payroll", claim3wsite) (List.mem_cons_self _ _)

/-- A directory with none of the recognized files and no markdown files,
outside `teamdynamix`, normalizes to the bare initial record. -/
theorem processItem_empty {pcs : Option (Except Unit Json)} {pn : String} {item : Dir}
    (hpn : pn ≠ "teamdynamix")
    (h1 : item.csvInv = none) (h2 : item.metadataJson = none)
    (h3 : item.crawlSummary = none) (h4 : item.apiSummary = none)
    (h5 : item.mdFiles = []) :
    processItem pcs pn item = .ok (initSite pn item.name) := by
  have hs1 : stage1 pn item = .ok (initSite pn item.name) := by
    simp only [stage1, h1]
  have hs2 : stage2 pn item = .ok (initSite pn item.name) := by
    simp only [stage2, hs1, ok_bind, h2]
  have hs3 : stage3 pn item = .ok (initSite pn item.name) := by
    unfold stage3
    rw [hs2, ok_bind, if_pos (by rfl), h3]
  have hs4 : stage4 pn item = .ok (initSite pn item.name) := by
    unfold stage4
    rw [hs3, ok_bind]
    split
    · rw [h4]
    · rfl
  have hs5 : stage5 pcs pn item = .ok (initSite pn item.name) := by
    unfold stage5
    rw [hs4, ok_bind]
    have hb : (pn == "teamdynamix") = false := by simp [hpn]
    rw [if_neg (by rw [hb]; simp)]
  unfold processItem
  rw [hs5, ok_bind, if_pos (by rfl), h5]
  rfl

/-- C8 counterexample: the `teamdynamix/benefits` directory contains none
of the recognized files and no markdown files, yet it contributes a Site
record (pages synthesized from the parent's crawl-summary categories). -/
theorem claim8_retention_counterexample :
    claim8benefits.csvInv = none ∧ claim8benefits.metadataJson = none ∧
    claim8benefits.crawlSummary = none ∧ claim8benefits.apiSummary = none ∧
    claim8benefits.mdFiles = [] ∧
    (readCrawlData claim8root).map (fun l => l.map Prod.fst) =
      .ok ["teamdynamix", "teamdynamix/benefits"] := by
  refine ⟨rfl, rfl, rfl, rfl, rfl, ?_⟩
  have hInner : scanItems "teamdynamix" claim8td.crawlSummary claim8td.subdirs =
      .ok [("teamdynamix/benefits", claim8bSite)] := by
    show scanItems "teamdynamix" (some (.ok claim8psum)) [claim8benefits] = _
    rw [scanItems_cons]
    rw [show processItem (some (.ok claim8psum)) "teamdynamix" claim8benefits =
        .ok claim8bSite from rfl]
    rw [scanItems_nil]
    rfl
  have hscan : readCrawlData claim8root =
      .ok [("teamdynamix", claim8tdSite), ("teamdynamix/benefits", claim8bSite)] := by
    unfold readCrawlData
    show scanItems "" none [claim8td] = _
    rw [scanItems_cons]
    rw [show processItem none "" claim8td = .ok claim8tdSite from rfl]
    rw [scanItems_nil]
    have hInner' : scanItems (joinName "" claim8td.name) claim8td.crawlSummary
        claim8td.subdirs = .ok [("teamdynamix/benefits", claim8bSite)] := hInner
    rw [hInner']
    rfl
  rw [hscan]
  rfl

/-- C8 (amended): a visited directory contributes a Site record iff, after
all resolution steps, its page list is non-empty or its summary mapping is
non-empty (the exact retention test of line 250); and a directory
containing none of the recognized files and no markdown files contributes
no Site record, unless it is a child of the `teamdynamix` directory — such
children can gain pages from the parent's crawl-summary categories. -/
theorem claim8_retention_amended {pn : String} {pcs : Option (Except Unit Json)}
    {item : Dir} {rest : List Dir} {l : List (String × Site)} {site : Site}
    (hscan : scanItems pn pcs (item :: rest) = .ok l)
    (hproc : processItem pcs pn item = .ok site) :
    ∃ sub tail,
      scanItems pn pcs rest = .ok tail ∧
      ((pn == "" || allowList.contains item.name) = true →
        scanItems (joinName pn item.name) item.crawlSummary item.subdirs = .ok sub) ∧
      ((pn == "" || allowList.contains item.name) = false → sub = []) ∧
      l = (if (!site.pages.isEmpty || site.summary.truthy) = true
           then [(site.name, site)] else []) ++ sub ++ tail ∧
      ((!site.pages.isEmpty || site.summary.truthy) = true → (site.name, site) ∈ l) ∧
      ((!site.pages.isEmpty || site.summary.truthy) = false → l = sub ++ tail) ∧
      (pn ≠ "teamdynamix" → item.csvInv = none → item.metadataJson = none →
        item.crawlSummary = none → item.apiSummary = none → item.mdFiles = [] →
        site.pages = [] ∧ site.summary.truthy = false ∧ l = sub ++ tail) := by
  rw [scanItems_cons, hproc] at hscan
  cases hcond : (pn == "" || allowList.contains item.name) with
  | true =>
    rw [if_pos hcond] at hscan
    cases hsub : scanItems (joinName pn item.name) item.crawlSummary item.subdirs with
    | error e0 => rw [hsub] at hscan; simp at hscan
    | ok sub =>
      rw [hsub] at hscan
      cases htail : scanItems pn pcs rest with
      | error e0 => rw [htail] at hscan; simp at hscan
      | ok tail =>
        rw [htail] at hscan
        have hl : (if (!site.pages.isEmpty || site.summary.truthy) = true
            then [(site.name, site)] else []) ++ sub ++ tail = l := by
          cases hscan
          rfl
        refine ⟨sub, tail, rfl, fun _ => rfl, fun hf => by simp at hf,
          hl.symm, ?_, ?_, ?_⟩
        · intro ht
          rw [← hl, if_pos ht]
          exact List.mem_append_left _ (List.mem_append_left _ (List.mem_cons_self _ _))
        · intro hf
          rw [← hl, if_neg (by rw [hf]; simp)]
          rfl
        · intro hpn e1 e2 e3 e4 e5
          have hempty := @processItem_empty pcs pn item hpn e1 e2 e3 e4 e5
          rw [hproc] at hempty
          have hsite : site = initSite pn item.name := Except.ok.inj hempty
          have hpages : site.pages = [] := by rw [hsite]; rfl
          have hsummary : site.summary.truthy = false := by rw [hsite]; rfl
          refine ⟨hpages, hsummary, ?_⟩
          rw [← hl, if_neg (by rw [hpages, hsummary]; simp)]
          rfl
  | false =>
    rw [if_neg (by rw [hcond]; simp)] at hscan
    dsimp only at hscan
    cases htail : scanItems pn pcs rest with
    | error e0 => rw [htail] at hscan; simp at hscan
    | ok tail =>
      rw [htail] at hscan
      have hl : (if (!site.pages.isEmpty || site.summary.truthy) = true
          then [(site.name, site)] else []) ++ [] ++ tail = l := by
        cases hscan
        rfl
      refine ⟨[], tail, rfl, fun ht => by simp at ht, fun _ => rfl,
        hl.symm, ?_, ?_, ?_⟩
      · intro ht
        rw [← hl, if_pos ht]
        exact List.mem_append_left _ (List.mem_append_left _ (List.mem_cons_self _ _))
      · intro hf
        rw [← hl, if_neg (by rw [hf]; simp)]
        rfl
      · intro hpn e1 e2 e3 e4 e5
        have hempty := @processItem_empty pcs pn item hpn e1 e2 e3 e4 e5
        rw [hproc] at hempty
        have hsite : site = initSite pn item.name := Except.ok.inj hempty
        have hpages : site.pages = [] := by rw [hsite]; rfl
        have hsummary : site.summary.truthy = false := by rw [hsite]; rfl
        refine ⟨hpages, hsummary, ?_⟩
        rw [← hl, if_neg (by rw [hpages, hsummary]; simp)]
        rfl

theorem claim8_retention_amended_witness :
    (("webres" : String), claim8wsite) ∈ [(("webres" : String), claim8wsite)] := by
  have hproc : processItem none "" claim8wdir = .ok claim8wsite := rfl
  have hscan : scanItems "" none [claim8wdir] = .ok [("webres", claim8wsite)] := by
    have hsubnil : scanItems (joinName "" claim8wdir.name) claim8wdir.crawlSummary
        claim8wdir.subdirs = .ok [] := scanItems_nil _ _
    rw [scanItems_cons, hproc, hsubnil, scanItems_nil]
    rfl
  obtain ⟨sub, tail, htail, hsubT, hsubF, hl, hmem, hnone, hempty⟩ :=
    claim8_retention_amended hscan hproc
  exact hmem rfl

/-! ## Error propagation of malformed inputs (C9) -/

theorem stage2_err_of_stage1 {pn : String} {item : Dir} {e : Unit}
    (h : stage1 pn item = .error e) : stage2 pn item = .error e := by
  unfold stage2
  rw [h, error_bind]

theorem stage3_err_of_stage2 {pn : String} {item : Dir} {e : Unit}
    (h : stage2 pn item = .error e) : stage3 pn item = .error e := by
  unfold stage3
  rw [h, error_bind]

theorem stage4_err_of_stage3 {pn : String} {item : Dir} {e : Unit}
    (h : stage3 pn item = .error e) : stage4 pn item = .error e := by
  unfold stage4
  rw [h, error_bind]

theorem stage5_err_of_stage4 {pcs : Option (Except Unit Json)} {pn : String}
    {item : Dir} {e : Unit}
    (h : stage4 pn item = .error e) : stage5 pcs pn item = .error e := by
  unfold stage5
  rw [h, error_bind]

theorem processItem_err_of_stage5 {pcs : Option (Except Unit Json)} {pn : String}
    {item : Dir} {e : Unit}
    (h : stage5 pcs pn item = .error e) : processItem pcs pn item = .error e := by
  unfold processItem
  rw [h, error_bind]

/-- C9: a read failure on an individual markdown file is caught locally:
the file still yields a Page with the filename-derived defaults
(`file:///<path>` and the underscore/hyphen-to-space title-cased stem) and
the run continues, producing a Site from the remaining defaults; whereas a
malformed `crawl_inventory.csv`, `_metadata.json`, `crawl_summary.json`,
`api_processing_summary.json`, or parent crawl-summary aborts the whole
run with an error exactly when the resolution chain opens the file. -/
theorem claim9_error_policy :
    (∀ (stem path : String) (e : Unit),
      processMdFile ⟨stem, path, .error e⟩ =
        mdPage ("file:///" ++ path)
          (pyTitle (pyReplace (pyReplace stem "-" " ") "_" " ")) path) ∧
    (∀ (pcs : Option (Except Unit Json)) (pn : String) (item : Dir),
      pn ≠ "teamdynamix" → item.csvInv = none → item.metadataJson = none →
      item.crawlSummary = none → item.apiSummary = none →
      processItem pcs pn item = .ok (markdownStep (initSite pn item.name) item.mdFiles)) ∧
    (∀ (pcs : Option (Except Unit Json)) (pn : String) (item : Dir),
      item.csvInv = some (.error ()) → processItem pcs pn item = .error ()) ∧
    (∀ (pcs : Option (Except Unit Json)) (pn : String) (item : Dir) (s1 : Site),
      stage1 pn item = .ok s1 → item.metadataJson = some (.error ()) →
      processItem pcs pn item = .error ()) ∧
    (∀ (pcs : Option (Except Unit Json)) (pn : String) (item : Dir) (s2 : Site),
      stage2 pn item = .ok s2 → s2.pages = [] →
      item.crawlSummary = some (.error ()) → processItem pcs pn item = .error ()) ∧
    (∀ (pcs : Option (Except Unit Json)) (item : Dir) (s3 : Site),
      stage3 "dropbox" item = .ok s3 → s3.pages = [] → item.name = "intranet-files" →
      item.apiSummary = some (.error ()) → processItem pcs "dropbox" item = .error ()) ∧
    (∀ (item : Dir) (s4 : Site),
      stage4 "teamdynamix" item = .ok s4 → s4.pages = [] →
      processItem (some (.error ())) "teamdynamix" item = .error ()) := by
  refine ⟨?_, ?_, ?_, ?_, ?_, ?_, ?_⟩
  · intro stem path e
    rfl
  · intro pcs pn item hpn h1 h2 h3 h4
    have hs1 : stage1 pn item = .ok (initSite pn item.name) := by
      simp only [stage1, h1]
    have hs2 : stage2 pn item = .ok (initSite pn item.name) := by
      simp only [stage2, hs1, ok_bind, h2]
    have hs3 : stage3 pn item = .ok (initSite pn item.name) := by
      unfold stage3
      rw [hs2, ok_bind, if_pos (by rfl), h3]
    have hs4 : stage4 pn item = .ok (initSite pn item.name) := by
      unfold stage4
      rw [hs3, ok_bind]
      split
      · rw [h4]
      · rfl
    have hs5 : stage5 pcs pn item = .ok (initSite pn item.name) := by
      unfold stage5
      rw [hs4, ok_bind]
      have hb : (pn == "teamdynamix") = false := by simp [hpn]
      rw [if_neg (by rw [hb]; simp)]
    unfold processItem
    rw [hs5, ok_bind, if_pos (by rfl)]
  · intro pcs pn item hc
    have h1 : stage1 pn item = .error () := by simp only [stage1, hc]
    exact processItem_err_of_stage5 (stage5_err_of_stage4 (stage4_err_of_stage3
      (stage3_err_of_stage2 (stage2_err_of_stage1 h1))))
  · intro pcs pn item s1 h1 hm
    have h2 : stage2 pn item = .error () := by
      simp only [stage2, h1, ok_bind, hm]
    exact processItem_err_of_stage5 (stage5_err_of_stage4 (stage4_err_of_stage3
      (stage3_err_of_stage2 h2)))
  · intro pcs pn item s2 h2 hemp hcs
    have h3 : stage3 pn item = .error () := by
      unfold stage3
      rw [h2, ok_bind, if_pos (by simp [hemp]), hcs]
    exact processItem_err_of_stage5 (stage5_err_of_stage4 (stage4_err_of_stage3 h3))
  · intro pcs item s3 h3 hemp hname hapi
    have h4 : stage4 "dropbox" item = .error () := by
      unfold stage4
      rw [h3, ok_bind, if_pos (by simp [hname, hemp]), hapi]
    exact processItem_err_of_stage5 (stage5_err_of_stage4 h4)
  · intro item s4 h4 hemp
    have h5 : stage5 (some (.error ())) "teamdynamix" item = .error () := by
      unfold stage5
      rw [h4, ok_bind, if_pos (by simp [hemp])]
    exact processItem_err_of_stage5 h5

theorem claim9_error_policy_witness :
    processMdFile ⟨"a_b-c", "docs/web/a_b-c.md", .error ()⟩ =
      mdPage ("file:///" ++ "docs/web/a_b-c.md")
        (pyTitle (pyReplace (pyReplace "a_b-c" "-" " ") "_" " ")) "docs/web/a_b-c.md" ∧
    processItem none "" claim9baddir = .error () := by
  constructor
  · exact claim9_error_policy.1 "a_b-c" "docs/web/a_b-c.md" ()
  · exact claim9_error_policy.2.2.1 none "" claim9baddir rfl

/-! ## Metadata overwrite semantics (C10) -/

theorem dfind_setField (fs : List (String × Json)) (k : String) (v : Json) :
    dfind (setField fs k v) k = some v := by
  induction fs with
  | nil => simp [setField, dfind]
  | cons p rest ih =>
    obtain ⟨k', v'⟩ := p
    by_cases hk : k' = k
    · subst hk
      simp [setField, dfind]
    · simp only [setField]
      rw [if_neg (by simpa using hk)]
      simp only [dfind, List.find?]
      rw [show (k' == k) = false from by simpa using hk]
      simpa [dfind] using ih

theorem getKey_setKey (j : Json) (k : String) (v : Json) :
    (j.setKey k v).getKey k = v := by
  unfold Json.setKey Json.getKey dget
  rw [show (Json.obj (setField j.objFields k v)).objFields = setField j.objFields k v from rfl]
  rw [dfind_setField]
  rfl

/-- The metadata base URL is `None` when `baseUrl` is absent and the files
list is empty (or its first URL is empty). -/
theorem metaBaseUrl_null {md : Json} (hnull : md.getKey "baseUrl" = .null)
    (hfail : (md.getKey "files").truthy = false ∨
      (((md.getKey "files").asArr.headD (.obj [])).getD "url" (.str "")).truthy = false) :
    metaBaseUrl md = .null := by
  unfold metaBaseUrl
  dsimp only
  rw [hnull]
  rcases hfail with hf | hf
  · rw [if_neg (by rw [hf]; simp)]
  · by_cases hft : (md.getKey "files").truthy = true
    · rw [if_pos (by rw [hft]; rfl)]
      rw [hf]
      simp
    · have hft' : (md.getKey "files").truthy = false := by simpa using hft
      rw [if_neg (by rw [hft']; simp)]

/-- C10: whenever a directory's `_metadata.json` parses, after the
metadata step the Site's crawl timestamp equals the file's `crawledAt`
value unconditionally — `null` when absent, erasing any CSV-derived
timestamp — and the summary's `base_url` is overwritten with the metadata
base URL, which is `null` when `baseUrl` is absent and the files list is
empty or its first URL is empty. -/
theorem claim10_metadata_overwrite {pn : String} {item : Dir} {md : Json} {s : Site}
    (hm : item.metadataJson = some (.ok md))
    (h2 : stage2 pn item = .ok s) :
    s.crawl_date = md.getKey "crawledAt" ∧
    s.summary.getKey "base_url" = metaBaseUrl md ∧
    (md.getKey "baseUrl" = .null →
      ((md.getKey "files").truthy = false ∨
       (((md.getKey "files").asArr.headD (.obj [])).getD "url" (.str "")).truthy = false) →
      s.summary.getKey "base_url" = .null) := by
  obtain ⟨s1, h1⟩ := stage2_ok_stage1 h2
  simp only [stage2, h1, ok_bind, hm, metadataStep] at h2
  split at h2
  · split at h2
    · cases h2
      refine ⟨rfl, getKey_setKey _ _ _, fun hnull hfail => ?_⟩
      rw [getKey_setKey]
      exact metaBaseUrl_null hnull hfail
    · cases h2
      refine ⟨rfl, getKey_setKey _ _ _, fun hnull hfail => ?_⟩
      rw [getKey_setKey]
      exact metaBaseUrl_null hnull hfail
  · simp at h2

theorem claim10_metadata_overwrite_witness :
    (stage2 "" claim10dir).map (fun s => (s.crawl_date, s.summary.getKey "base_url")) =
      .ok (Json.null, Json.null) ∧
    (stage1 "" claim10dir).map (fun s => (s.crawl_date, s.summary.getKey "base_url")) =
      .ok (Json.str "2024-12-31", Json.str "https://in.uga.edu") := by
  constructor
  · obtain ⟨s, hs⟩ : ∃ s, stage2 "" claim10dir = .ok s := ⟨_, rfl⟩
    have h := claim10_metadata_overwrite
      (show claim10dir.metadataJson = some (.ok claim10md) from rfl) hs
    rw [hs]
    simp only [Except.map]
    rw [h.1, h.2.2 rfl (.inl rfl)]
    rfl
  · rfl

end GenerateSite
